import Mathlib

set_option maxRecDepth 8000

/-!
Verification development for the leadAtomaticScraper repository
(`src/scraper.py`, `src/main.py`).

The Python source is shallowly embedded: pure string manipulation is
translated to executable Lean functions over `String` / `List Char`;
Selenium/HTTP interactions are made explicit as data supplied by the
environment (an element that may be absent or whose lookup raises is an
`Option`, an operation that may raise an exception that escapes a scope
is a `Bool` flag or an `Except` value).  Every definition is translated
from the source file and line range named in its doc comment.
-/

namespace LeadScraper

/-! ## Python string primitives

Python `str` semantics used by the scraper, modelled over `List Char`:
substring containment (`in`), `str.lower()` (modelled per character via
`Char.toLower`; the marker phrases involved are pure ASCII),
`str.strip()`, `' '.join(s.split())`, and `str.startswith`. -/

/-- Model of Python `haystack.startswith(needle)` at the head position:
`leadsWith n h` is true when `n` is an initial segment of `h`. -/
def leadsWith : List Char → List Char → Bool
  | [], _ => true
  | _ :: _, [] => false
  | a :: as, b :: bs => a == b && leadsWith as bs

/-- Model of Python `needle in haystack` (substring containment). -/
def occursIn (n : List Char) : List Char → Bool
  | [] => leadsWith n []
  | c :: t => leadsWith n (c :: t) || occursIn n t

/-- `needle in haystack` on `String`. -/
def strOccursIn (n h : String) : Bool := occursIn n.data h.data

/-- `s.startswith(p)` on `String`. -/
def strLeads (p s : String) : Bool := leadsWith p.data s.data

/-- Model of Python `s.lower()` (per-character; the scraper only compares
against ASCII marker phrases). -/
def pyLower (s : String) : String := ⟨s.data.map Char.toLower⟩

/-- Model of Python `s.strip()`: drop leading and trailing whitespace. -/
def pyStrip (s : String) : String :=
  ⟨((s.data.dropWhile Char.isWhitespace).reverse.dropWhile Char.isWhitespace).reverse⟩

/-- Split a character list into maximal whitespace-free words, as Python
`s.split()` does; `cur` is the (reversed) word being accumulated. -/
def wordsAux : List Char → List Char → List (List Char)
  | [], cur => if cur = [] then [] else [cur.reverse]
  | c :: cs, cur =>
    if c.isWhitespace then
      if cur = [] then wordsAux cs [] else cur.reverse :: wordsAux cs []
    else wordsAux cs (c :: cur)

/-- Join words with single spaces, as Python `' '.join(words)` does. -/
def joinWords : List (List Char) → List Char
  | [] => []
  | [w] => w
  | w :: ws => w ++ ' ' :: joinWords ws

/-- Model of Python `' '.join(s.split())`: collapse every whitespace run
to a single space and drop leading/trailing whitespace. -/
def pyJoinSplit (s : String) : String := ⟨joinWords (wordsAux s.data [])⟩

/-! ## Blocking Detector — `src/scraper.py` lines 161-167 -/

/-- The fixed marker-phrase list `blocks` of `is_blocked_text`. -/
def BLOCK_MARKERS : List String :=
  ["captcha", "verify", "unusual traffic", "access denied", "robot check",
   "are you a robot"]

/-- `is_blocked_text` (`src/scraper.py` 161-167): empty text is blocked;
otherwise the lowercased text is searched for any marker phrase. -/
def is_blocked_text (text : String) : Bool :=
  if text = "" then true
  else BLOCK_MARKERS.any (fun b => strOccursIn b (pyLower text))

/-! ## Proxy pool — `src/scraper.py` lines 119-139

`load_proxies` reads `proxies.txt`; the file's lines are the model's
input.  A missing file or a read error yields `[]` in the source and is
modelled by calling with `[]`. -/

/-- `load_proxies` (`src/scraper.py` 127-139): strip each line, skip
blanks, prepend `http://` when the scheme is missing, keep file order. -/
def load_proxies : List String → List String
  | [] => []
  | line :: rest =>
    let p := pyStrip line
    if p = "" then load_proxies rest
    else if strLeads "http" p then p :: load_proxies rest
    else ("http://" ++ p) :: load_proxies rest

/-! ## Egress rotation (Recovery Controller)

Both recovery loops in the source have the same shape: fetch once on the
current (direct) egress; if the blocking heuristic fires and proxies are
available, recreate the driver on each proxy in load order, refetch, and
stop at the first non-blocked result; when every egress stays blocked the
last fetched (still blocked) result is kept.
(`src/scraper.py` 297-327 `enrich_jobs_with_descriptions` and
`src/scraper.py` 369-399 `scrape_jobs_selenium`.)
Driver recreation is modelled as infallible, so `fetch` is the one
effectful step of each attempt. -/

/-- One network egress: the direct connection or a proxy endpoint. -/
inductive Egress where
  | direct : Egress
  | proxy : String → Egress
deriving DecidableEq

/-- The ordered egress pool of the spec: direct first, then the proxies
in load order. -/
def egressPool (proxies : List String) : List Egress :=
  Egress.direct :: proxies.map Egress.proxy

/-- The final egress of the pool (the egress whose result is kept when
every attempt stays blocked). -/
def lastEgress (proxies : List String) : Egress :=
  match proxies.getLast? with
  | some p => Egress.proxy p
  | none => Egress.direct

/-- The result kept after walking proxies `ps` with previous result
`last`: the last proxy's fetch, or `last` when there is no proxy. -/
def lastOr (fetch : Egress → String) (last : String) (ps : List String) : String :=
  match ps.getLast? with
  | some q => fetch (Egress.proxy q)
  | none => last

/-- The proxy rotation loop (`for p in proxies: ... if not
is_blocked_text(desc): break`).  Returns the final result together with
the list of egresses attempted; `last` carries the previous (blocked)
result, which is kept when the proxy list is exhausted. -/
def rotateLoop (fetch : Egress → String) : List String → String → String × List Egress
  | [], last => (last, [])
  | p :: ps, _ =>
    let d := fetch (Egress.proxy p)
    if is_blocked_text d then
      let r := rotateLoop fetch ps d
      (r.1, Egress.proxy p :: r.2)
    else (d, [Egress.proxy p])

/-- The whole recovery step: direct attempt first, then rotation only if
the direct result looks blocked and proxies exist (`if
is_blocked_text(desc) and proxies:`). Returns the delivered result and
the ordered trace of attempted egresses. -/
def withRecovery (fetch : Egress → String) (proxies : List String) : String × List Egress :=
  let d := fetch Egress.direct
  if is_blocked_text d ∧ proxies ≠ [] then
    let r := rotateLoop fetch proxies d
    (r.1, Egress.direct :: r.2)
  else (d, [Egress.direct])

/-! ## `fetch_full_description` — `src/scraper.py` lines 32-74

The HTTP exchange is explicit data: `HttpOutcome.exn msg` models
`sess.get` raising a `requests` exception with message `msg` (the only
exception class the function's `try` catches — `raise_for_status` errors
are in that class too), and `HttpOutcome.resp status page` models a
completed response whose parsed document is `page`.  A `page` carries,
for each of the four description selectors in order, the element's text
(`none` when the selector matches nothing), plus the whole-document
text. -/

/-- Parsed-document model: the text payload for each description
selector, in the source's selector order, and the body text obtained by
`soup.get_text(separator=' ', strip=True)`. -/
structure HttpPage where
  descElems : List (Option String)
  bodyText : String
deriving DecidableEq

/-- Outcome of `sess.get(url)`: a raised request exception or a response
with a status code and parsed page. -/
inductive HttpOutcome where
  | exn : String → HttpOutcome
  | resp : Nat → HttpPage → HttpOutcome
deriving DecidableEq

/-- Message text of the `HTTPError` raised by `resp.raise_for_status()`
for a 4xx/5xx status (modelled message content). -/
def statusErrText (status : Nat) : String :=
  "HTTPError for status " ++ toString status

/-- The selector loop of `fetch_full_description` (lines 61-64): first
element that exists and whose stripped text is non-empty wins, and its
text is whitespace-collapsed. -/
def findDescElem : List (Option String) → Option String
  | [] => none
  | none :: rest => findDescElem rest
  | some t :: rest =>
    if pyStrip t ≠ "" then some (pyJoinSplit t) else findDescElem rest

/-- `fetch_full_description` (`src/scraper.py` 32-74). -/
def fetch_full_description (url : String) (outcome : HttpOutcome) : String :=
  if url = "" ∨ strLeads "http" url = false then "No valid URL to fetch description"
  else
    match outcome with
    | HttpOutcome.exn msg => "Error fetching description: " ++ msg
    | HttpOutcome.resp status page =>
      if status = 403 then "Blocked (403) when fetching description"
      else if 400 ≤ status ∧ status < 600 then
        "Error fetching description: " ++ statusErrText status
      else
        match findDescElem page.descElems with
        | some d => d
        | none =>
          if 200 < page.bodyText.data.length then ⟨page.bodyText.data.take 10000⟩
          else "Description not found or page blocked"

/-! ## `src/main.py` — `scrape_jobs`

The driver's answers to the walker are explicit data: an `ItemPage` is
everything one job-detail tab can tell the extraction code, and the
enumeration is a function from a CSS selector to the `href` attributes
of the matched elements (`none` for a `find_elements` call that raises,
`some none` inside the list for an element whose `href` attribute is
null). -/

/-- One emitted row of `scrape_jobs` (`src/main.py` 143-150). -/
structure Record where
  title : String
  company : String
  url : String
  location : String
  description : String
  scraped_at : String
deriving DecidableEq

/-- The title/company fallback loops of `scrape_jobs` (`src/main.py`
112-131): the accumulator starts at the default, a successful
`find_element` overwrites it with the element's raw text (no stripping),
the loop stops at the first non-empty text, a failed lookup is skipped. -/
def extractField : String → List (Option String) → String
  | acc, [] => acc
  | acc, none :: rest => extractField acc rest
  | _, some t :: rest => if t ≠ "" then t else extractField t rest

/-- The location fallback of `scrape_jobs` (`src/main.py` 133-141):
`none` models `find_elements` raising; with two or more elements the
second one's text is used, with one the first, with zero the default
`"Australia"` stays. -/
def getLocation : Option (List String) → String
  | none => "Australia"
  | some [] => "Australia"
  | some [a] => a
  | some (_ :: b :: _) => b

/-- The description fallback of `scrape_jobs` (`src/main.py` 101-110):
the waited-for `jobDescriptionText` element, else the alternative
selector, else the empty string. -/
def getDescription : Option String → Option String → String
  | some t, _ => t
  | none, some t => t
  | none, none => ""

/-- Everything one job tab yields to the per-item extraction code of
`scrape_jobs` (`src/main.py` 90-150).  `openOk = false` models the
open-tab/switch steps raising, which the per-item handler catches. -/
structure ItemPage where
  openOk : Bool
  waitDesc : Option String
  altDesc : Option String
  titleCands : List (Option String)
  companyCands : List (Option String)
  locElems : Option (List String)
deriving DecidableEq

/-- Per-item processing of `scrape_jobs` (`src/main.py` 90-150): `none`
when the item faulted and was skipped by the `except` handler, otherwise
the appended record.  The record's `url` is exactly the enumerated link. -/
def processItem (pg : ItemPage) (link : String) (now : String) : Option Record :=
  if pg.openOk then
    some { title := extractField "N/A" pg.titleCands
           company := extractField "N/A" pg.companyCands
           url := link
           location := getLocation pg.locElems
           description := getDescription pg.waitDesc pg.altDesc
           scraped_at := now }
  else none

/-- The enumeration selector list of `scrape_jobs` (`src/main.py` 63). -/
def mainSelectors : List String :=
  ["a.tapItem", "a.css-5lfssm", "a.jcs-JobTitle", "div.job_seen_beacon a"]

/-- The inner href loop of `scrape_jobs` (`src/main.py` 68-71): append a
href only when it is truthy (non-null, non-empty) and not already
collected. -/
def addLinks : List String → List (Option String) → List String
  | acc, [] => acc
  | acc, none :: t => addLinks acc t
  | acc, some h :: t =>
    if h ≠ "" ∧ h ∉ acc then addLinks (acc ++ [h]) t else addLinks acc t

/-- The selector loop of `scrape_jobs` (`src/main.py` 65-75): try each
selector in order, skip a selector whose lookup raises, and stop after
the first selector that leaves the link list non-empty. -/
def collectLoop (findLinks : String → Option (List (Option String))) :
    List String → List String → List String
  | acc, [] => acc
  | acc, sel :: sels =>
    match findLinks sel with
    | none => collectLoop findLinks acc sels
    | some elems =>
      let acc2 := addLinks acc elems
      if acc2 ≠ [] then acc2 else collectLoop findLinks acc2 sels

/-- `job_links` as built by `scrape_jobs` (`src/main.py` 63-75). -/
def collectJobLinks (findLinks : String → Option (List (Option String))) : List String :=
  collectLoop findLinks [] mainSelectors

/-- The per-item loop of `scrape_jobs` (`src/main.py` 90-168):
`jobs_data` accumulates the records of the items that did not fault. -/
def walkLoop (pages : String → ItemPage) (now : String) :
    List Record → List String → List Record
  | acc, [] => acc
  | acc, link :: rest =>
    match processItem (pages link) link now with
    | some r => walkLoop pages now (acc ++ [r]) rest
    | none => walkLoop pages now acc rest

/-- `scrape_jobs` (`src/main.py` 45-171), result value only: collect
links, return `[]` when none were found, otherwise process the first
`min(env_max, len(job_links))` links. -/
def scrape_jobs (pages : String → ItemPage)
    (findLinks : String → Option (List (Option String)))
    (envMax : Nat) (now : String) : List Record :=
  let job_links := collectJobLinks findLinks
  if job_links = [] then []
  else walkLoop pages now [] (job_links.take (min envMax job_links.length))

/-- Environment for a whole `scrape_jobs` run, making the operations
that can raise past the per-item boundary explicit: `getFails` models
`driver.get(INDEED_SEARCH_URL)` raising (line 50), `envMaxRaw = none`
models `int(os.getenv("MAX_JOBS", "50"))` raising (line 85), and
`quitFails` models `driver.quit()` raising (lines 79 and 170, which are
not wrapped in any handler). -/
structure RunEnv where
  getFails : Bool
  envMaxRaw : Option Nat
  quitFails : Bool
  pages : String → ItemPage
  findLinks : String → Option (List (Option String))
  now : String

/-- Control flow of `scrape_jobs` (`src/main.py` 45-171): the `Except`
is the call's outcome (a propagated exception or the returned list) and
the `Bool` records whether `driver.quit()` was invoked before the call
ended. -/
def scrape_jobs_run (e : RunEnv) : Except String (List Record) × Bool :=
  if e.getFails then (Except.error "navigation failed", false)
  else
    let job_links := collectJobLinks e.findLinks
    if job_links = [] then
      if e.quitFails then (Except.error "teardown failed", true)
      else (Except.ok [], true)
    else
      match e.envMaxRaw with
      | none => (Except.error "invalid MAX_JOBS", false)
      | some envMax =>
        if e.quitFails then (Except.error "teardown failed", true)
        else
          (Except.ok (walkLoop e.pages e.now []
            (job_links.take (min envMax job_links.length))), true)

/-! ## `src/scraper.py` — the card loop of `scrape_jobs_selenium`
(lines 401-499)

A `Card` is everything one result card yields to the extraction code;
each `Option` models a lookup that may raise (`find_element`) or an
attribute that may be null (`get_attribute`).  Within the card body the
only operations that can raise are so modelled, so each enumerated card
produces exactly one appended job dict; the outer `except: continue`
is reachable only after the append (from the inter-card sleep). -/

/-- One result card of `scrape_jobs_selenium` (`src/scraper.py`
409-497).  `hrefAttr`: outer `none` = `get_attribute('href')` raised,
inner `none` = attribute null.  `clickPane`: `none` = the
scroll/click/sleep path raised, otherwise the texts found by the two
description-pane lookups. -/
structure Card where
  titleElem : Option String
  ariaLabel : Option (Option String)
  companyElem : Option String
  locElem : Option String
  salaryElem : Option String
  summaryElem : Option String
  hrefAttr : Option (Option String)
  clickPane : Option (Option String × Option String)
deriving DecidableEq

/-- One job dict of `scrape_jobs_selenium` (`src/scraper.py` 457-466
plus the `description` key added at 485-491). -/
structure SJob where
  title : String
  company : String
  location : String
  salary : String
  job_type : String
  summary : String
  posted : String
  url : String
  description : String
deriving DecidableEq

/-- Title extraction (`src/scraper.py` 420-427): `h2.jobTitle` stripped
text, else the `aria-label` attribute (null coalesced to `''`), else
`''`. -/
def cardTitle (c : Card) : String :=
  match c.titleElem with
  | some t => pyStrip t
  | none =>
    match c.ariaLabel with
    | some v => v.getD ""
    | none => ""

/-- Url extraction (`src/scraper.py` 449-455): the `href` attribute,
prefixed with the site origin when it is a relative `/rc` link, with
both a raised lookup and a null attribute collapsing to `''`. -/
def cardUrl (c : Card) : String :=
  match c.hrefAttr with
  | none => ""
  | some none => ""
  | some (some h) =>
    if h ≠ "" ∧ strLeads "/rc" h = true then "https://au.indeed.com" ++ h
    else h

/-- Description extraction (`src/scraper.py` 468-491): if the click path
worked, the first populated description pane's stripped text,
whitespace-collapsed when non-empty; if the click path raised, navigate
to the url when there is one (`fetchDesc` models
`fetch_full_description_selenium`), else `''`. -/
def cardDescription (fetchDesc : String → String) (c : Card) (url : String) : String :=
  match c.clickPane with
  | some (dmain, dvjs) =>
    let desc :=
      match dmain with
      | some t => pyStrip t
      | none =>
        match dvjs with
        | some t => pyStrip t
        | none => ""
    if desc ≠ "" then pyJoinSplit desc else ""
  | none => if url ≠ "" then fetchDesc url else ""

/-- The per-card body of `scrape_jobs_selenium` (`src/scraper.py`
409-493): builds the job dict that is appended unconditionally at line
493. -/
def processCard (fetchDesc : String → String) (c : Card) : SJob :=
  { title := cardTitle c
    company := (match c.companyElem with | some t => pyStrip t | none => "")
    location := (match c.locElem with | some t => pyStrip t | none => "")
    salary := (match c.salaryElem with | some t => pyStrip t | none => "")
    job_type := ""
    summary := (match c.summaryElem with | some t => pyStrip t | none => "")
    posted := ""
    url := cardUrl c
    description := cardDescription fetchDesc c (cardUrl c) }

/-- The card loop of `scrape_jobs_selenium` (`src/scraper.py` 407-499):
one job dict per enumerated card, capped at `max_results`. -/
def scrape_jobs_selenium (fetchDesc : String → String) (cards : List Card)
    (max_results : Nat) : List SJob :=
  (cards.take max_results).map (processCard fetchDesc)

/-- Environment for a whole `scrape_jobs_selenium` call:  `createFails`
models `create_selenium_driver` raising inside the `try` (line 371),
`navFails` models an unguarded driver operation raising later in the
body (`driver.get` at 373 or `find_elements` at 407), `quitFails`
models `driver.quit()` raising inside the `finally` block. -/
structure SelRunEnv where
  createFails : Bool
  navFails : Bool
  quitFails : Bool
  fetchDesc : String → String
  cards : List Card
  maxResults : Nat

/-- Control flow of `scrape_jobs_selenium` (`src/scraper.py` 369-505):
the `finally` block always runs and swallows its own failure (`try:
driver.quit() except: pass`), so teardown is attempted on every exit
path and never alters the outcome; the `Bool` records that the teardown
attempt ran. -/
def scrape_jobs_selenium_run (e : SelRunEnv) : Except String (List SJob) × Bool :=
  if e.createFails then (Except.error "driver creation failed", true)
  else if e.navFails then (Except.error "navigation failed", true)
  else (Except.ok (scrape_jobs_selenium e.fetchDesc e.cards e.maxResults), true)

/-! ## Concrete instances used by witnesses and counterexamples -/

/-- An item page whose open-tab step faults. -/
def faultyPage : ItemPage :=
  { openOk := false, waitDesc := none, altDesc := none, titleCands := [],
    companyCands := [], locElems := none }

/-- A fetch that looks blocked on every egress. -/
def c3_fetch : Egress → String := fun _ => "access denied"

/-- A two-line proxy file. -/
def c4_lines : List String := ["alpha:1", "beta:2"]

/-- A fetch blocked on the direct path and on the first proxy, clean on
the second proxy. -/
def c4_fetch : Egress → String := fun e =>
  match e with
  | Egress.direct => "please verify you are human"
  | Egress.proxy q =>
    if q = "http://alpha:1" then "unusual traffic detected"
    else "plenty of good jobs"

/-- A result card whose `href` attribute is null: every other field
resolves, so the card is processed to completion and appended. -/
def c1_card : Card :=
  { titleElem := some "Engineer", ariaLabel := none,
    companyElem := some "Acme", locElem := some "Sydney",
    salaryElem := none, summaryElem := none,
    hrefAttr := some none, clickPane := some (some "Great role", none) }

/-- Description fetcher stub for the counterexample card. -/
def c1_fetchDesc : String → String := fun _ => ""

/-- Enumeration whose first selector yields one absolute link. -/
def c1_find : String → Option (List (Option String)) := fun sel =>
  if sel = "a.tapItem" then some [some "https://au.indeed.com/a"] else none

/-- A detail page that resolves a title and a description. -/
def c1_pages : String → ItemPage := fun _ =>
  { openOk := true, waitDesc := some "nice role", altDesc := none,
    titleCands := [some "Dev"], companyCands := [], locElems := none }

/-- The record `scrape_jobs` emits for `c1_find`/`c1_pages`. -/
def c1_record : Record :=
  { title := "Dev", company := "N/A", url := "https://au.indeed.com/a",
    location := "Australia", description := "nice role", scraped_at := "t0" }

/-- Enumeration yielding three links. -/
def c6_find : String → Option (List (Option String)) := fun sel =>
  if sel = "a.tapItem" then some [some "u1", some "u2", some "u3"] else none

/-- Detail pages where the middle item faults and the others resolve. -/
def c6_pages : String → ItemPage := fun link =>
  if link = "u2" then faultyPage
  else { openOk := true, waitDesc := some ("desc of " ++ link), altDesc := none,
         titleCands := [some ("job " ++ link)], companyCands := [some "Acme"],
         locElems := some ["hdr", "Sydney"] }

/-- The record `scrape_jobs` emits for the first link under `c6_pages`. -/
def c6_rec1 : Record :=
  { title := "job u1", company := "Acme", url := "u1", location := "Sydney",
    description := "desc of u1", scraped_at := "t1" }

/-- The record `scrape_jobs` emits for the third link under `c6_pages`. -/
def c6_rec3 : Record :=
  { title := "job u3", company := "Acme", url := "u3", location := "Sydney",
    description := "desc of u3", scraped_at := "t1" }

/-- Enumeration in which every selector lookup raises. -/
def c7_find : String → Option (List (Option String)) := fun _ => none

/-- A run with healthy navigation and teardown but empty enumeration. -/
def c7_env : RunEnv :=
  { getFails := false, envMaxRaw := some 50, quitFails := false,
    pages := fun _ => faultyPage, findLinks := c7_find, now := "t2" }

/-- A run whose initial `driver.get` raises. -/
def c8_env : RunEnv :=
  { getFails := true, envMaxRaw := some 50, quitFails := false,
    pages := fun _ => faultyPage, findLinks := c7_find, now := "t3" }

/-- A selenium run with healthy driver setup. -/
def c8_sel_env : SelRunEnv :=
  { createFails := false, navFails := false, quitFails := false,
    fetchDesc := fun _ => "", cards := [], maxResults := 50 }

/-- A run with healthy navigation, parse and teardown steps. -/
def c8_env_ok : RunEnv :=
  { getFails := false, envMaxRaw := some 50, quitFails := false,
    pages := fun _ => faultyPage, findLinks := fun _ => none, now := "t5" }

/-- A run that reaches the empty-enumeration early return but whose
`driver.quit()` raises there. -/
def c8_env_teardown : RunEnv :=
  { getFails := false, envMaxRaw := some 50, quitFails := true,
    pages := fun _ => faultyPage, findLinks := c7_find, now := "t4" }

/-- A 300-character body text (long enough for the fallback branch). -/
def c9_body : String := ⟨List.replicate 300 'a'⟩

/-- A page where no description selector matches. -/
def c9_page : HttpPage := { descElems := [none, none, none, none], bodyText := c9_body }

/-- Enumeration whose first selector raises and whose second yields
duplicate, empty and null hrefs. -/
def c10_find : String → Option (List (Option String)) := fun sel =>
  if sel = "a.css-5lfssm" then some [some "u1", some "", none, some "u1", some "u2"]
  else none

/-! ## Helper lemmas -/

/-- Mapping a character function preserves head-segment matching. -/
theorem leadsWith_map (f : Char → Char) :
    ∀ n h : List Char, leadsWith n h = true → leadsWith (n.map f) (h.map f) = true
  | [], _, _ => rfl
  | _ :: _, [], hlt => by simp [leadsWith] at hlt
  | a :: as, b :: bs, hlt => by
    simp only [leadsWith, Bool.and_eq_true, beq_iff_eq] at hlt
    simp only [List.map_cons, leadsWith, Bool.and_eq_true, beq_iff_eq]
    exact ⟨congrArg f hlt.1, leadsWith_map f as bs hlt.2⟩

/-- Mapping a character function preserves substring containment. -/
theorem occursIn_map (f : Char → Char) :
    ∀ n h : List Char, occursIn n h = true → occursIn (n.map f) (h.map f) = true
  | n, [], hx => leadsWith_map f n [] hx
  | n, c :: t, hx => by
    simp only [occursIn, Bool.or_eq_true] at hx
    simp only [List.map_cons, occursIn, Bool.or_eq_true]
    cases hx with
    | inl h => exact Or.inl (leadsWith_map f n (c :: t) h)
    | inr h => exact Or.inr (occursIn_map f n t h)

/-- A non-empty needle never matches at the head of an empty haystack. -/
theorem leadsWith_nil_of_cons (a : Char) (as : List Char) :
    leadsWith (a :: as) [] = false := rfl

/-- When every candidate lookup raises, the extraction loop keeps the
accumulator it started with. -/
theorem extract_all_none (d : String) (cs : List (Option String))
    (h : ∀ c ∈ cs, c = none) : extractField d cs = d := by
  induction cs with
  | nil => rfl
  | cons c rest ih =>
    have hc := h c (List.mem_cons_self c rest)
    subst hc
    simpa only [extractField] using ih (fun x hx => h x (List.mem_cons_of_mem _ hx))

/-- The first candidate resolving to non-empty text wins, regardless of
the candidates after it; earlier candidates may have raised or resolved
to empty text. -/
theorem extract_first_nonempty :
    ∀ (d : String) (cs : List (Option String)) (t : String) (rest : List (Option String)),
    (∀ c ∈ cs, c = none ∨ c = some "") → t ≠ "" →
    extractField d (cs ++ some t :: rest) = t
  | d, [], t, rest, _, ht => by simp only [List.nil_append, extractField, if_pos ht]
  | d, c :: cs, t, rest, h, ht => by
    have hc := h c (List.mem_cons_self c cs)
    have htail : ∀ x ∈ cs, x = none ∨ x = some "" :=
      fun x hx => h x (List.mem_cons_of_mem _ hx)
    cases hc with
    | inl hnone =>
      subst hnone
      simpa only [List.cons_append, extractField]
        using extract_first_nonempty d cs t rest htail ht
    | inr hempty =>
      subst hempty
      simp only [List.cons_append, extractField, ne_eq, not_true_eq_false, if_false,
        reduceIte]
      exact extract_first_nonempty "" cs t rest htail ht

/-- When every candidate raises or resolves to empty text, the loop ends
on its starting accumulator or on the empty string. -/
theorem extract_all_degenerate :
    ∀ (d : String) (cs : List (Option String)),
    (∀ c ∈ cs, c = none ∨ c = some "") →
    extractField d cs = d ∨ extractField d cs = ""
  | d, [], _ => Or.inl rfl
  | d, c :: cs, h => by
    have hc := h c (List.mem_cons_self c cs)
    have htail : ∀ x ∈ cs, x = none ∨ x = some "" :=
      fun x hx => h x (List.mem_cons_of_mem _ hx)
    cases hc with
    | inl hnone =>
      subst hnone
      simpa only [extractField] using extract_all_degenerate d cs htail
    | inr hempty =>
      subst hempty
      simp only [extractField, ne_eq, not_true_eq_false, if_false, reduceIte]
      rcases extract_all_degenerate "" cs htail with h1 | h1
      · exact Or.inr h1
      · exact Or.inr h1

/-- Walking one more (blocked) proxy just moves the carried result. -/
theorem lastOr_cons (fetch : Egress → String) (last : String) (p : String)
    (ps : List String) :
    lastOr fetch last (p :: ps) = lastOr fetch (fetch (Egress.proxy p)) ps := by
  cases ps with
  | nil => rfl
  | cons q ps =>
    cases hq : (q :: ps).getLast? with
    | none => exact absurd (List.getLast?_eq_none_iff.1 hq) (by simp)
    | some r => simp [lastOr, List.getLast?_cons_cons, hq]

/-- On a non-empty proxy list the kept result is the last proxy's. -/
theorem lastOr_ne_nil (fetch : Egress → String) (last : String)
    (ps : List String) (hne : ps ≠ []) :
    lastOr fetch last ps = fetch (lastEgress ps) := by
  cases hq : ps.getLast? with
  | none => exact absurd (List.getLast?_eq_none_iff.1 hq) hne
  | some q => simp [lastOr, lastEgress, hq]

/-- When every proxy stays blocked, the rotation walks the whole list in
order and keeps the last proxy's result. -/
theorem rotateLoop_all_blocked (fetch : Egress → String) :
    ∀ (ps : List String) (last : String),
    (∀ p ∈ ps, is_blocked_text (fetch (Egress.proxy p)) = true) →
    rotateLoop fetch ps last = (lastOr fetch last ps, ps.map Egress.proxy)
  | [], _, _ => rfl
  | p :: ps, last, hblk => by
    have hp := hblk p (List.mem_cons_self p ps)
    have htail : ∀ x ∈ ps, is_blocked_text (fetch (Egress.proxy x)) = true :=
      fun x hx => hblk x (List.mem_cons_of_mem _ hx)
    have ih := rotateLoop_all_blocked fetch ps (fetch (Egress.proxy p)) htail
    simp [rotateLoop, hp, ih, lastOr_cons]

/-- The rotation stops at the first proxy whose result is not blocked,
having tried exactly the blocked ones before it, in order. -/
theorem rotateLoop_first_ok (fetch : Egress → String) :
    ∀ (ps₁ : List String) (p : String) (ps₂ : List String) (last : String),
    (∀ q ∈ ps₁, is_blocked_text (fetch (Egress.proxy q)) = true) →
    is_blocked_text (fetch (Egress.proxy p)) = false →
    rotateLoop fetch (ps₁ ++ p :: ps₂) last =
      (fetch (Egress.proxy p), (ps₁ ++ [p]).map Egress.proxy)
  | [], p, ps₂, last, _, hok => by simp [rotateLoop, hok]
  | q :: ps₁, p, ps₂, last, hblk, hok => by
    have hq := hblk q (List.mem_cons_self q ps₁)
    have htail : ∀ x ∈ ps₁, is_blocked_text (fetch (Egress.proxy x)) = true :=
      fun x hx => hblk x (List.mem_cons_of_mem _ hx)
    have ih := rotateLoop_first_ok fetch ps₁ p ps₂ (fetch (Egress.proxy q)) htail hok
    simp [rotateLoop, hq, ih]

/-- The per-item loop is the order-preserving accumulation of the items
that processed without a fault. -/
theorem walkLoop_eq (pages : String → ItemPage) (now : String) :
    ∀ (links : List String) (acc : List Record),
    walkLoop pages now acc links =
      acc ++ links.filterMap (fun l => processItem (pages l) l now) := by
  intro links
  induction links with
  | nil => intro acc; simp [walkLoop]
  | cons l rest ih =>
    intro acc
    cases h : processItem (pages l) l now with
    | some r => simp [walkLoop, h, ih]
    | none => simp [walkLoop, h, ih]

/-- A record produced by the per-item body carries its link as url. -/
theorem processItem_url (pg : ItemPage) (link now : String) (r : Record)
    (h : processItem pg link now = some r) : r.url = link := by
  unfold processItem at h
  split at h
  · cases h with
    | refl => rfl
  · cases h

/-- The href loop preserves distinctness and absence of empty links. -/
theorem addLinks_inv :
    ∀ (elems : List (Option String)) (acc : List String),
    acc.Nodup → (∀ l ∈ acc, l ≠ "") →
    (addLinks acc elems).Nodup ∧ ∀ l ∈ addLinks acc elems, l ≠ ""
  | [], acc, h1, h2 => ⟨h1, h2⟩
  | none :: t, acc, h1, h2 => by
    simpa only [addLinks] using addLinks_inv t acc h1 h2
  | some h :: t, acc, h1, h2 => by
    by_cases hc : h ≠ "" ∧ h ∉ acc
    · have hnd : (acc ++ [h]).Nodup := by
        simp [List.nodup_append, h1, hc.2]
      have hne : ∀ l ∈ acc ++ [h], l ≠ "" := by
        intro l hl
        rcases List.mem_append.1 hl with hl | hl
        · exact h2 l hl
        · simp only [List.mem_singleton] at hl
          subst hl
          exact hc.1
      simpa only [addLinks, if_pos hc] using addLinks_inv t (acc ++ [h]) hnd hne
    · simpa only [addLinks, if_neg hc] using addLinks_inv t acc h1 h2

/-- The selector loop preserves distinctness and absence of empty
links. -/
theorem collectLoop_inv (findLinks : String → Option (List (Option String))) :
    ∀ (sels : List String) (acc : List String),
    acc.Nodup → (∀ l ∈ acc, l ≠ "") →
    (collectLoop findLinks acc sels).Nodup ∧
      ∀ l ∈ collectLoop findLinks acc sels, l ≠ ""
  | [], acc, h1, h2 => ⟨h1, h2⟩
  | sel :: sels, acc, h1, h2 => by
    cases hf : findLinks sel with
    | none =>
      simpa only [collectLoop, hf] using collectLoop_inv findLinks sels acc h1 h2
    | some elems =>
      have hadd := addLinks_inv elems acc h1 h2
      by_cases he : addLinks acc elems ≠ []
      · simpa only [collectLoop, hf, if_pos he] using hadd
      · simpa only [collectLoop, hf, if_neg he]
          using collectLoop_inv findLinks sels (addLinks acc elems) hadd.1 hadd.2

/-- The collected link list is duplicate-free and has no empty entry. -/
theorem collectJobLinks_inv (findLinks : String → Option (List (Option String))) :
    (collectJobLinks findLinks).Nodup ∧ ∀ l ∈ collectJobLinks findLinks, l ≠ "" :=
  collectLoop_inv findLinks mainSelectors [] List.nodup_nil (by simp)

/-- Closed form of the walker: take the cap, then keep the fault-free
items' records in order. -/
theorem scrape_jobs_eq (pages : String → ItemPage)
    (findLinks : String → Option (List (Option String))) (envMax : Nat) (now : String) :
    scrape_jobs pages findLinks envMax now =
      ((collectJobLinks findLinks).take (min envMax (collectJobLinks findLinks).length)).filterMap
        (fun l => processItem (pages l) l now) := by
  unfold scrape_jobs
  by_cases h : collectJobLinks findLinks = []
  · simp [h]
  · simp [h, walkLoop_eq]

/-! ## Claim theorems -/

/-- C2: `is_blocked_text` returns true on empty text; true whenever the
text contains an occurrence of one of the fixed marker phrases in any
letter case (an occurrence whose per-character lowering equals the
marker); and false on non-empty text containing none of the phrases
(the lowercased text contains no marker). -/
theorem C2_is_blocked_text_spec (text : String) :
    (text = "" → is_blocked_text text = true)
  ∧ (∀ m ∈ BLOCK_MARKERS, ∀ occ : List Char,
      occursIn occ text.data = true → occ.map Char.toLower = m.data →
      is_blocked_text text = true)
  ∧ (text ≠ "" → (∀ m ∈ BLOCK_MARKERS, strOccursIn m (pyLower text) = false) →
      is_blocked_text text = false) := by
  refine ⟨fun h => by simp [is_blocked_text, h], ?_, ?_⟩
  · intro m hm occ hocc hlow
    by_cases he : text = ""
    · simp [is_blocked_text, he]
    · have h1 : occursIn (occ.map Char.toLower) (text.data.map Char.toLower) = true :=
        occursIn_map Char.toLower occ text.data hocc
      rw [hlow] at h1
      simp only [is_blocked_text, if_neg he]
      exact List.any_eq_true.2 ⟨m, hm, h1⟩
  · intro hne hnone
    simp only [is_blocked_text, if_neg hne]
    rw [List.any_eq_false]
    intro m hm
    simp [hnone m hm]

/-- C2 witness: a cased marker occurrence is flagged; clean text is not;
empty text is flagged. -/
theorem C2_witness :
    is_blocked_text "Robot Check ahead" = true
  ∧ is_blocked_text "plenty of jobs here" = false
  ∧ is_blocked_text "" = true := by
  refine ⟨?_, ?_, ?_⟩
  · exact (C2_is_blocked_text_spec "Robot Check ahead").2.1 "robot check" (by decide)
      ("Robot Check".data) (by decide) (by decide)
  · exact (C2_is_blocked_text_spec "plenty of jobs here").2.2 (by decide) (by decide)
  · exact (C2_is_blocked_text_spec "").1 rfl

/-- C3: when every egress fetch looks blocked, the recovery loop makes
exactly one attempt per pool entry (`len(pool)` attempts: direct first,
then every proxy), completes without failing, and hands the caller the
last obtained — still blocked — result. -/
theorem C3_recovery_exhaustion (fetch : Egress → String) (proxies : List String)
    (hall : ∀ e : Egress, is_blocked_text (fetch e) = true) :
    (withRecovery fetch proxies).2 = egressPool proxies
  ∧ (withRecovery fetch proxies).2.length = proxies.length + 1
  ∧ (withRecovery fetch proxies).1 = fetch (lastEgress proxies) := by
  have hkey : withRecovery fetch proxies
      = (fetch (lastEgress proxies), egressPool proxies) := by
    cases proxies with
    | nil => simp [withRecovery, egressPool, lastEgress]
    | cons p ps =>
      have hrot := rotateLoop_all_blocked fetch (p :: ps) (fetch Egress.direct)
        (fun q _ => hall (Egress.proxy q))
      have hlast := lastOr_ne_nil fetch (fetch Egress.direct) (p :: ps) (by simp)
      simp [withRecovery, hall Egress.direct, hrot, hlast, egressPool]
  rw [hkey]
  exact ⟨rfl, by simp [egressPool], rfl⟩

/-- C3 witness: with two proxies and every egress blocked, three
attempts are made and the blocked text is returned. -/
theorem C3_witness :
    (withRecovery c3_fetch ["p1", "p2"]).2.length = 3
  ∧ (withRecovery c3_fetch ["p1", "p2"]).1 = "access denied" := by
  have hall : ∀ e : Egress, is_blocked_text (c3_fetch e) = true :=
    fun _ => show is_blocked_text "access denied" = true by decide
  have h := C3_recovery_exhaustion c3_fetch ["p1", "p2"] hall
  refine ⟨?_, ?_⟩
  · rw [h.2.1]
    rfl
  · rw [h.2.2]
    rfl

/-- C4: the direct connection is always attempt number one; on a blocked
direct result the proxies are tried in exactly the order `load_proxies`
returned them, stopping at the first egress whose result is not
blocked, whose result is delivered. -/
theorem C4_egress_order (fetch : Egress → String) (lines ps₁ : List String)
    (p : String) (ps₂ : List String)
    (hsplit : load_proxies lines = ps₁ ++ p :: ps₂)
    (hdir : is_blocked_text (fetch Egress.direct) = true)
    (hblk : ∀ q ∈ ps₁, is_blocked_text (fetch (Egress.proxy q)) = true)
    (hok : is_blocked_text (fetch (Egress.proxy p)) = false) :
    withRecovery fetch (load_proxies lines) =
      (fetch (Egress.proxy p), Egress.direct :: (ps₁ ++ [p]).map Egress.proxy) := by
  rw [hsplit]
  have hrot := rotateLoop_first_ok fetch ps₁ p ps₂ (fetch Egress.direct) hblk hok
  have hne : ps₁ ++ p :: ps₂ ≠ [] := by simp
  simp [withRecovery, hdir, hne, hrot]

/-- C4 witness: direct blocked, first proxy blocked, second proxy clean:
the attempts are direct, proxy one, proxy two, and the clean result is
delivered. -/
theorem C4_witness :
    withRecovery c4_fetch (load_proxies c4_lines) =
      ("plenty of good jobs",
       [Egress.direct, Egress.proxy "http://alpha:1", Egress.proxy "http://beta:2"]) := by
  have h := C4_egress_order c4_fetch c4_lines ["http://alpha:1"] "http://beta:2" []
    (by decide) (by decide) (by decide) (by decide)
  have h2 : (c4_fetch (Egress.proxy "http://beta:2"),
      Egress.direct :: (["http://alpha:1"] ++ ["http://beta:2"]).map Egress.proxy) =
      ("plenty of good jobs",
       [Egress.direct, Egress.proxy "http://alpha:1", Egress.proxy "http://beta:2"]) := by
    decide
  exact h.trans h2

/-- C5 counterexample: with candidates that resolve only to empty text
the loop returns the empty string, not the default `"N/A"`; and a
candidate's text is returned raw, neither trimmed nor
whitespace-collapsed. -/
theorem C5_counterexample :
    extractField "N/A" [some "", none] = ""
  ∧ ("" : String) ≠ "N/A"
  ∧ extractField "N/A" [some "  Senior   Dev  "] = "  Senior   Dev  " :=
  ⟨rfl, by decide, rfl⟩

/-- C5 amended: candidates are evaluated left to right and the first
candidate resolving to non-empty raw text is returned immediately, later
candidates never affecting the result; no trimming or whitespace
collapsing is applied; when every candidate fails to resolve, the
field-specific default is returned ("N/A" for title and company,
"Australia" for location when its element lookup raises or matches
nothing); a candidate that resolves to empty text, however, overwrites
the pending default, so when no candidate is non-empty the result is
the default or the empty string. -/
theorem C5_extract_amended (d t : String) (cs rest : List (Option String))
    (hcs : ∀ c ∈ cs, c = none ∨ c = some "") (ht : t ≠ "") :
    extractField d (cs ++ some t :: rest) = t
  ∧ (∀ cs2, (∀ c ∈ cs2, c = none) → extractField d cs2 = d)
  ∧ (∀ cs2, (∀ c ∈ cs2, c = none ∨ c = some "") →
      extractField d cs2 = d ∨ extractField d cs2 = "")
  ∧ getLocation none = "Australia" ∧ getLocation (some []) = "Australia" :=
  ⟨extract_first_nonempty d cs t rest hcs ht,
   fun cs2 h => extract_all_none d cs2 h,
   fun cs2 h => extract_all_degenerate d cs2 h,
   rfl, rfl⟩

/-- C5 witness: the first non-empty candidate wins after a raising and
an empty candidate, and the one after it is never consulted. -/
theorem C5_witness :
    extractField "N/A" [none, some "", some "Dev", some "ignored"] = "Dev" :=
  (C5_extract_amended "N/A" "Dev" [none, some ""] [some "ignored"]
    (by decide) (by decide)).1

/-- C6: one item's fault cannot escape the per-item loop or affect any
other item: the walker's output is exactly the fault-free items'
records in order, its length is bounded by the configured cap and by
the number of enumerated entries, and every fault-free enumerated item
contributes its record; the selenium card loop is likewise bounded. -/
theorem C6_walker_isolation (pages : String → ItemPage)
    (findLinks : String → Option (List (Option String))) (envMax : Nat) (now : String) :
    (scrape_jobs pages findLinks envMax now).length ≤ envMax
  ∧ (scrape_jobs pages findLinks envMax now).length ≤ (collectJobLinks findLinks).length
  ∧ (∀ l ∈ (collectJobLinks findLinks).take (min envMax (collectJobLinks findLinks).length),
      ∀ r, processItem (pages l) l now = some r →
        r ∈ scrape_jobs pages findLinks envMax now)
  ∧ scrape_jobs pages findLinks envMax now =
      ((collectJobLinks findLinks).take (min envMax (collectJobLinks findLinks).length)).filterMap
        (fun l => processItem (pages l) l now)
  ∧ (∀ (fetchDesc : String → String) (cards : List Card) (n : Nat),
      (scrape_jobs_selenium fetchDesc cards n).length ≤ n ∧
      (scrape_jobs_selenium fetchDesc cards n).length ≤ cards.length) := by
  have heq := scrape_jobs_eq pages findLinks envMax now
  have hlen : (scrape_jobs pages findLinks envMax now).length ≤
      min envMax (collectJobLinks findLinks).length := by
    rw [heq]
    calc (((collectJobLinks findLinks).take
            (min envMax (collectJobLinks findLinks).length)).filterMap
            (fun l => processItem (pages l) l now)).length
        ≤ ((collectJobLinks findLinks).take
            (min envMax (collectJobLinks findLinks).length)).length :=
          List.length_filterMap_le _ _
      _ ≤ min envMax (collectJobLinks findLinks).length := by
          simp [List.length_take]
  refine ⟨le_trans hlen (min_le_left _ _), le_trans hlen (min_le_right _ _), ?_, heq, ?_⟩
  · intro l hl r hr
    rw [heq]
    exact List.mem_filterMap.2 ⟨l, hl, hr⟩
  · intro fetchDesc cards n
    constructor
    · calc (scrape_jobs_selenium fetchDesc cards n).length
          = (cards.take n).length := List.length_map _ _
        _ ≤ n := by simp [List.length_take]
    · calc (scrape_jobs_selenium fetchDesc cards n).length
          = (cards.take n).length := List.length_map _ _
        _ ≤ cards.length := by simp [List.length_take]

/-- C6 witness: of three enumerated links the middle one faults; the
other two still contribute their records and the cap holds. -/
theorem C6_witness :
    (scrape_jobs c6_pages c6_find 50 "t1").length ≤ 50
  ∧ c6_rec1 ∈ scrape_jobs c6_pages c6_find 50 "t1"
  ∧ c6_rec3 ∈ scrape_jobs c6_pages c6_find 50 "t1" := by
  have h := C6_walker_isolation c6_pages c6_find 50 "t1"
  exact ⟨h.1, h.2.2.1 "u1" (by decide) c6_rec1 (by decide),
    h.2.2.1 "u3" (by decide) c6_rec3 (by decide)⟩

/-- C7: when enumeration finds nothing after all selectors, the run
returns the empty list as a normal value: the pure result is `[]`, the
selenium card loop on zero cards is `[]`, and the whole-run control
flow ends in `Except.ok []` with the driver released (given the
navigation and teardown steps themselves do not raise). -/
theorem C7_empty_enumeration (pages : String → ItemPage)
    (findLinks : String → Option (List (Option String))) (envMax : Nat) (now : String)
    (fetchDesc : String → String) (n : Nat)
    (hempty : collectJobLinks findLinks = []) :
    scrape_jobs pages findLinks envMax now = []
  ∧ scrape_jobs_selenium fetchDesc [] n = []
  ∧ (∀ e : RunEnv, e.findLinks = findLinks → e.getFails = false → e.quitFails = false →
      scrape_jobs_run e = (Except.ok [], true)) := by
  refine ⟨by simp [scrape_jobs, hempty], by simp [scrape_jobs_selenium], ?_⟩
  intro e hfl hget hquit
  simp [scrape_jobs_run, hget, hquit, hfl, hempty]

/-- C7 witness: every selector lookup raising yields the empty result
and a normal run completion. -/
theorem C7_witness :
    scrape_jobs (fun _ => faultyPage) c7_find 50 "t2" = []
  ∧ scrape_jobs_run c7_env = (Except.ok [], true) := by
  have h := C7_empty_enumeration (fun _ => faultyPage) c7_find 50 "t2" (fun _ => "") 5
    (by decide)
  exact ⟨h.1, h.2.2 c7_env rfl rfl rfl⟩

/-- C8 counterexample: in `scrape_jobs` (main.py) an exception from the
initial navigation exits the function without the driver ever being
released — the claim's every-exit-path release does not hold there. -/
theorem C8_counterexample :
    scrape_jobs_run c8_env = (Except.error "navigation failed", false) := rfl

/-- C8 amended: in `scrape_jobs_selenium` (scraper.py) the driver is
released on every exit path and a teardown failure never alters the
outcome; in `scrape_jobs` (main.py) the driver is released on normal
completion and on the empty-enumeration early return, but an exception
escaping before those points (initial navigation failure, invalid
MAX_JOBS value) exits without release, and a teardown failure there
propagates to the caller instead of being swallowed. -/
theorem C8_release_amended :
    (∀ e : SelRunEnv, (scrape_jobs_selenium_run e).2 = true)
  ∧ (∀ (e : SelRunEnv) (b : Bool),
      (scrape_jobs_selenium_run { e with quitFails := b }).1 =
        (scrape_jobs_selenium_run e).1)
  ∧ (∀ e : RunEnv, e.getFails = false →
      (collectJobLinks e.findLinks = [] ∨ e.envMaxRaw ≠ none) →
      (scrape_jobs_run e).2 = true)
  ∧ (∀ e : RunEnv, e.getFails = false → e.quitFails = true →
      collectJobLinks e.findLinks = [] →
      (scrape_jobs_run e).1 = Except.error "teardown failed") := by
  refine ⟨?_, ?_, ?_, ?_⟩
  · intro e
    by_cases h1 : e.createFails = true <;> by_cases h2 : e.navFails = true <;>
      simp [scrape_jobs_selenium_run, h1, h2]
  · intro e b
    rfl
  · intro e hget hcase
    rcases hcase with hnil | hmax
    · by_cases hq : e.quitFails = true <;>
        simp [scrape_jobs_run, hget, hnil, hq]
    · rcases Option.ne_none_iff_exists'.1 hmax with ⟨m, hm⟩
      by_cases hnil : collectJobLinks e.findLinks = [] <;>
        by_cases hq : e.quitFails = true <;>
          simp [scrape_jobs_run, hget, hnil, hm, hq]
  · intro e hget hq hnil
    simp [scrape_jobs_run, hget, hq, hnil]

/-- C8 witness: a healthy selenium run releases; a healthy main.py run
releases; a main.py run whose teardown raises surfaces that exception. -/
theorem C8_witness :
    (scrape_jobs_selenium_run c8_sel_env).2 = true
  ∧ (scrape_jobs_run c8_env_ok).2 = true
  ∧ (scrape_jobs_run c8_env_teardown).1 = Except.error "teardown failed" := by
  refine ⟨C8_release_amended.1 c8_sel_env, ?_, ?_⟩
  · exact C8_release_amended.2.2.1 c8_env_ok rfl (Or.inr (by decide))
  · exact C8_release_amended.2.2.2 c8_env_teardown rfl rfl (by decide)

/-- C9: `fetch_full_description` is total over its modelled inputs and
returns the documented diagnostic strings: invalid urls, a 403 status,
and request exceptions each map to their fixed message, and the
body-text fallback is truncated to at most ten thousand characters. -/
theorem C9_fetch_description_total (url : String) (outcome : HttpOutcome) :
    ((url = "" ∨ strLeads "http" url = false) →
      fetch_full_description url outcome = "No valid URL to fetch description")
  ∧ (∀ msg, strLeads "http" url = true → outcome = HttpOutcome.exn msg →
      fetch_full_description url outcome = "Error fetching description: " ++ msg)
  ∧ (∀ page, strLeads "http" url = true → outcome = HttpOutcome.resp 403 page →
      fetch_full_description url outcome = "Blocked (403) when fetching description")
  ∧ (∀ status page, strLeads "http" url = true → outcome = HttpOutcome.resp status page →
      status < 400 → findDescElem page.descElems = none →
      200 < page.bodyText.data.length →
      fetch_full_description url outcome = ⟨page.bodyText.data.take 10000⟩ ∧
      (fetch_full_description url outcome).data.length ≤ 10000) := by
  have hvalid : strLeads "http" url = true → ¬(url = "" ∨ strLeads "http" url = false) := by
    intro h hc
    rcases hc with hc | hc
    · subst hc
      exact absurd h (by decide)
    · simp [h] at hc
  refine ⟨?_, ?_, ?_, ?_⟩
  · intro h
    simp [fetch_full_description, h]
  · intro msg htrue hout
    subst hout
    simp only [fetch_full_description, if_neg (hvalid htrue)]
  · intro page htrue hout
    subst hout
    simp [fetch_full_description, if_neg (hvalid htrue)]
  · intro status page htrue hout hlt hfind hlong
    subst hout
    have h403 : ¬status = 403 := by omega
    have hrange : ¬(400 ≤ status ∧ status < 600) := by omega
    have hlong2 : 200 < page.bodyText.length := hlong
    have heq : fetch_full_description url (HttpOutcome.resp status page) =
        ⟨page.bodyText.data.take 10000⟩ := by
      simp [fetch_full_description, if_neg (hvalid htrue), h403, hrange, hfind, hlong,
        hlong2]
    refine ⟨heq, ?_⟩
    rw [heq]
    calc (page.bodyText.data.take 10000).length
        = min 10000 page.bodyText.data.length := List.length_take _ _
      _ ≤ 10000 := min_le_left _ _

/-- C9 witness: each branch at a concrete input — invalid url, request
exception, 403, and long-body fallback with the length bound. -/
theorem C9_witness :
    fetch_full_description "ftp://x" (HttpOutcome.exn "net down") =
      "No valid URL to fetch description"
  ∧ fetch_full_description "https://a" (HttpOutcome.exn "net down") =
      "Error fetching description: net down"
  ∧ fetch_full_description "https://a" (HttpOutcome.resp 403 c9_page) =
      "Blocked (403) when fetching description"
  ∧ (fetch_full_description "https://a" (HttpOutcome.resp 200 c9_page)).data.length ≤ 10000 := by
  refine ⟨?_, ?_, ?_, ?_⟩
  · exact (C9_fetch_description_total "ftp://x" (HttpOutcome.exn "net down")).1
      (Or.inr (by decide))
  · exact (C9_fetch_description_total "https://a" (HttpOutcome.exn "net down")).2.1
      "net down" (by decide) rfl
  · exact (C9_fetch_description_total "https://a" (HttpOutcome.resp 403 c9_page)).2.2.1
      c9_page (by decide) rfl
  · exact ((C9_fetch_description_total "https://a" (HttpOutcome.resp 200 c9_page)).2.2.2
      200 c9_page (by decide) rfl (by decide) (by decide)
      (by simp [c9_page, c9_body])).2

/-- C10: the job-link list built by `scrape_jobs` contains no
duplicates and no empty entries. -/
theorem C10_links_nodup (findLinks : String → Option (List (Option String))) :
    (collectJobLinks findLinks).Nodup ∧ ∀ l ∈ collectJobLinks findLinks, l ≠ "" :=
  collectJobLinks_inv findLinks

/-- C10 witness: duplicate, empty and null hrefs are filtered out. -/
theorem C10_witness :
    collectJobLinks c10_find = ["u1", "u2"]
  ∧ (collectJobLinks c10_find).Nodup
  ∧ ("u1" : String) ≠ "" :=
  ⟨by decide, (C10_links_nodup c10_find).1, (C10_links_nodup c10_find).2 "u1" (by decide)⟩

/-- C1 counterexample: `scrape_jobs_selenium` appends the record of a
card whose href cannot be resolved, with an empty url, instead of
dropping it. -/
theorem C1_counterexample :
    (scrape_jobs_selenium c1_fetchDesc [c1_card] 50).map SJob.url = [""] := by decide

/-- C1 amended: every record emitted by `scrape_jobs` (main.py) has a
non-empty url; `scrape_jobs_selenium` does not drop an entry whose href
cannot be resolved — it appends its record with an empty url — but it
never fabricates one: a selenium record's url is the empty string or is
derived from the card's href attribute, verbatim or with the site
origin prefixed onto a relative `/rc` link. -/
theorem C1_url_amended :
    (∀ (pages : String → ItemPage) (findLinks : String → Option (List (Option String)))
       (envMax : Nat) (now : String) (r : Record),
       r ∈ scrape_jobs pages findLinks envMax now → r.url ≠ "")
  ∧ (∀ c : Card, cardUrl c = "" ∨
       ∃ h, c.hrefAttr = some (some h) ∧
         (cardUrl c = h ∨ cardUrl c = "https://au.indeed.com" ++ h)) := by
  constructor
  · intro pages findLinks envMax now r hr
    rw [scrape_jobs_eq] at hr
    rcases List.mem_filterMap.1 hr with ⟨l, hl, hpl⟩
    have hurl := processItem_url (pages l) l now r hpl
    have hmem : l ∈ collectJobLinks findLinks := List.mem_of_mem_take hl
    rw [hurl]
    exact (collectJobLinks_inv findLinks).2 l hmem
  · intro c
    cases hca : c.hrefAttr with
    | none => exact Or.inl (by simp [cardUrl, hca])
    | some v =>
      cases v with
      | none => exact Or.inl (by simp [cardUrl, hca])
      | some h =>
        refine Or.inr ⟨h, rfl, ?_⟩
        by_cases hcond : h ≠ "" ∧ strLeads "/rc" h = true
        · exact Or.inr (by simp [cardUrl, hca, hcond])
        · exact Or.inl (by simp [cardUrl, hca, hcond])

/-- C1 witness: a record emitted by the main.py walker carries its
non-empty enumerated link as url. -/
theorem C1_witness : c1_record.url ≠ "" :=
  C1_url_amended.1 c1_pages c1_find 50 "t0" c1_record (by decide)

end LeadScraper

